import Mathlib

/-!
# Verification of the bidirectional RPC runtime (juju-core rpc package)

A shallow embedding of the RPC core described by the specification,
together with the concrete test fixtures of the repository test suite
(the `Root`, `SimpleMethods`, `ErrorMethods`, ... receivers of
`rpc_test` and the `testConn` of `jsoncodec_test`).

The connection engine, dispatcher and codec themselves are not part of
the provided sources (only their test suites are), so those parts are
modelled from the specification text; each such definition carries a
doc comment starting with `Modelled from the spec:`.  The receivers and
fixtures are embedded directly from the test sources.
-/

/-! ## Wire values

The bodies that travel on the wire in the scenarios under study are flat
JSON objects whose fields are strings, integers, arrays of strings or
string-to-int maps.  `JVal` is one field value, `Json` one body. -/

inductive JVal where
  | jstr : String → JVal
  | jnum : Int → JVal
  | jstrs : List String → JVal
  | jmap : List (String × Int) → JVal
deriving DecidableEq

inductive Json where
  | null : Json
  | obj : List (String × JVal) → Json
deriving DecidableEq

/-- The `stringVal` record of the test suite: `type stringVal struct { Val string }`. -/
structure stringVal where
  Val : String
deriving DecidableEq

/-- Encoding of a `stringVal` as a wire body. -/
def encodeStringVal (v : stringVal) : Json :=
  Json.obj [("Val", JVal.jstr v.Val)]

/-- Modelled from the spec: the body decoding performed at the codec
boundary (Go `encoding/json`, not part of the sources).  Decoding into
`stringVal` reads only the declared field `Val`; unknown fields are
ignored, a missing field or a `null` body decodes to the zero value. -/
def decodeStringVal : Json → Except String stringVal
  | Json.null => Except.ok ⟨""⟩
  | Json.obj fs =>
      match fs.lookup "Val" with
      | none => Except.ok ⟨""⟩
      | some (JVal.jstr s) => Except.ok ⟨s⟩
      | some (JVal.jnum _) => Except.error "json: cannot unmarshal number into Go value of type string"
      | some (JVal.jstrs _) => Except.error "json: cannot unmarshal array into Go value of type string"
      | some (JVal.jmap _) => Except.error "json: cannot unmarshal object into Go value of type string"

/-- Modelled from the spec: decoding into the argument of
`SimpleMethods.SliceArg`, a record `struct { X []string }`.  A JSON
object in the `X` position cannot be unmarshalled into a slice and
fails with the Go `encoding/json` message observed by the tests. -/
def decodeSliceArg : Json → Except String (List String)
  | Json.null => Except.ok []
  | Json.obj fs =>
      match fs.lookup "X" with
      | none => Except.ok []
      | some (JVal.jstrs xs) => Except.ok xs
      | some (JVal.jmap _) => Except.error "json: cannot unmarshal object into Go value of type []string"
      | some (JVal.jstr _) => Except.error "json: cannot unmarshal string into Go value of type []string"
      | some (JVal.jnum _) => Except.error "json: cannot unmarshal number into Go value of type []string"

/-! ## Errors -/

/-- A Go error value as the test suite distinguishes them: `codedError`
exposes an `ErrorCode` accessor, every other error only a message. -/
inductive GoErr where
  | coded : String → String → GoErr
  | plain : String → GoErr
deriving DecidableEq

/-- The `Error()` string of a Go error value. -/
def GoErr.message : GoErr → String
  | GoErr.coded m _ => m
  | GoErr.plain m => m

/-- The optional `ErrorCode()` accessor of a Go error value. -/
def GoErr.errorCode : GoErr → Option String
  | GoErr.coded _ c => some c
  | GoErr.plain _ => none

/-- The `rpc.RequestError` delivered to a caller: message plus optional
wire code (empty string when absent). -/
structure RequestError where
  Message : String
  Code : String
deriving DecidableEq

/-- Modelled from the spec: the display string of a request error,
`request error: <message> (<code>)` when a code is present and
`request error: <message>` otherwise. -/
def RequestError.errString (e : RequestError) : String :=
  if e.Code = "" then "request error: " ++ e.Message
  else "request error: " ++ e.Message ++ " (" ++ e.Code ++ ")"

/-- A wire response as the server emits it: an error message (empty for
success), an error code, and an optional result body (present only on
success of a result-returning method). -/
structure Response where
  errMsg : String
  errCode : String
  body : Option Json
deriving DecidableEq

/-- An error response (no body). -/
def errR (msg code : String) : Response := ⟨msg, code, none⟩

/-- Modelled from the spec: the Error Mapper.  The transformer receives
the concrete error value; the transformed message becomes the wire
error message and, when the transformed error exposes an error-code
accessor, its value becomes the wire error code. -/
def errFromGoErr (tf : GoErr → GoErr) (e : GoErr) : Response :=
  errR (tf e).message (((tf e).errorCode).getD "")

/-- Decidable equality for fallible results. -/
instance {a b : Type} [DecidableEq a] [DecidableEq b] : DecidableEq (Except a b)
  | Except.ok x, Except.ok y =>
      if h : x = y then isTrue (by rw [h]) else isFalse (fun hc => h (Except.ok.inj hc))
  | Except.ok _, Except.error _ => isFalse (fun hc => Except.noConfusion hc)
  | Except.error _, Except.ok _ => isFalse (fun hc => Except.noConfusion hc)
  | Except.error d, Except.error e =>
      if h : d = e then isTrue (by rw [h]) else isFalse (fun hc => h (Except.error.inj hc))

/-! ## The test-suite root and its receivers (embedded from `rpc_test`) -/

/-- One recorded invocation, as the test root records it in `called`:
the id of the `SimpleMethods` receiver, the method name, and the
argument the method observed (`none` for the nil interface). -/
structure CallInfo where
  rcvrId : String
  method : String
  arg : Option stringVal
deriving DecidableEq

/-- The mutable state of the test `Root`: recorded calls, the
`returnErr` switch, the ids present in the `simple` map, and the
`errorInst` field (`none` when nil; `some e` holds the wrapped error of
the `ErrorMethods` instance, itself optional). -/
structure RootState where
  calls : List CallInfo
  returnErr : Bool
  simpleIds : List String
  errorInst : Option (Option GoErr)
deriving DecidableEq

/-- `Root.called`: appends a record of the invocation. -/
def called (s : RootState) (id m : String) (arg : Option stringVal) : RootState :=
  { s with calls := s.calls ++ [⟨id, m, arg⟩] }

/-- `Root.callError`: when `returnErr` is set, returns a `callError`
whose `Error()` string is `error calling <method>` (it exposes no
error-code accessor). -/
def callError (s : RootState) (m : String) : Option GoErr :=
  if s.returnErr then some (GoErr.plain ("error calling " ++ m)) else none

/-- The exported method names of the `SimpleMethods` receiver. -/
def simpleMethodNames : List String :=
  ["Call0r0", "Call0r1", "Call0r1e", "Call0r0e",
   "Call1r0", "Call1r1", "Call1r1e", "Call1r0e", "SliceArg"]

/-- Result of invoking one server method: the updated root state, the
encoded return value (if the method returns one), and the error the
method returned (if any). -/
structure InvokeOut where
  state : RootState
  ret : Option Json
  err : Option GoErr
deriving DecidableEq

/-- The `SimpleMethods` receiver, embedded from the test source.  Each
`Call<narg>r<nret><e>` method records itself via `called` (observing
its decoded argument when it takes one) and returns
`stringVal{"<name> ret"}` and/or `callError` as its signature says.
The body is decoded before invocation; a decode failure is returned on
the left and the method is never invoked. -/
def invokeSimple (s : RootState) (id m : String) (body : Json) : Except String InvokeOut :=
  if m = "Call0r0" then Except.ok ⟨called s id m none, none, none⟩
  else if m = "Call0r1" then
    Except.ok ⟨called s id m none, some (encodeStringVal ⟨"Call0r1 ret"⟩), none⟩
  else if m = "Call0r1e" then
    Except.ok ⟨called s id m none, some (encodeStringVal ⟨"Call0r1e ret"⟩), callError s "Call0r1e"⟩
  else if m = "Call0r0e" then
    Except.ok ⟨called s id m none, none, callError s "Call0r0e"⟩
  else if m = "Call1r0" then
    (decodeStringVal body).bind fun a => Except.ok ⟨called s id m (some a), none, none⟩
  else if m = "Call1r1" then
    (decodeStringVal body).bind fun a =>
      Except.ok ⟨called s id m (some a), some (encodeStringVal ⟨"Call1r1 ret"⟩), none⟩
  else if m = "Call1r1e" then
    (decodeStringVal body).bind fun a =>
      Except.ok ⟨called s id m (some a), some (encodeStringVal ⟨"Call1r1e ret"⟩), callError s "Call1r1e"⟩
  else if m = "Call1r0e" then
    (decodeStringVal body).bind fun a =>
      Except.ok ⟨called s id m (some a), none, callError s "Call1r0e"⟩
  else if m = "SliceArg" then
    (decodeSliceArg body).bind fun _ =>
      Except.ok ⟨s, some (encodeStringVal ⟨"SliceArg ret"⟩), none⟩
  else Except.error "unreachable: resolution only admits registered methods"

/-! ## The dispatcher (modelled from the spec) -/

/-- The server roots appearing in the scenarios: the test `Root`, the
`changedAPIRoot` installed by `ChangeAPIMethods.ChangeAPI`, and the
absent root (after `serve(nil)`). -/
inductive RootKind where
  | mainRoot
  | changedRoot
  | noRoot
deriving DecidableEq

/-- Modelled from the spec: the immutable method table derived from a
root value — for each object-type name (a root method of finder shape)
the list of registered method names of its receiver. -/
def methodsOfK : RootKind → String → Option (List String)
  | RootKind.mainRoot, ot =>
      if ot = "CallbackMethods" then some ["Factorial"]
      else if ot = "ChangeAPIMethods" then some ["ChangeAPI", "RemoveAPI"]
      else if ot = "DelayedMethods" then some ["Delay"]
      else if ot = "ErrorMethods" then some ["Call"]
      else if ot = "SimpleMethods" then some simpleMethodNames
      else none
  | RootKind.changedRoot, ot =>
      if ot = "NewlyAvailable" then some ["NewMethod"] else none
  | RootKind.noRoot, _ => none

/-- Modelled from the spec: finder resolution and invocation for a
request that passed the table lookups.  The finder runs first; a finder
error is a domain error and goes through the Error Mapper like a method
error.  Blocking receivers (`DelayedMethods`) and connection-coupled
receivers (`CallbackMethods`, `ChangeAPIMethods`) are handled by the
dedicated trace models further below, so this sequential executor
returns an empty success for them. -/
def dispatchK (k : RootKind) (tf : GoErr → GoErr) (s : RootState)
    (ot oid m : String) (body : Json) : RootState × Response :=
  match k with
  | RootKind.noRoot => (s, errR "no service" "")
  | RootKind.changedRoot =>
      (s, ⟨"", "", some (encodeStringVal ⟨"new method result"⟩)⟩)
  | RootKind.mainRoot =>
      if ot = "SimpleMethods" then
        if oid ∈ s.simpleIds then
          match invokeSimple s oid m body with
          | Except.error dmsg => (s, errR dmsg "")
          | Except.ok out =>
              match out.err with
              | some e => (out.state, errFromGoErr tf e)
              | none => (out.state, ⟨"", "", out.ret⟩)
        else (s, errFromGoErr tf (GoErr.plain "unknown SimpleMethods id"))
      else if ot = "ErrorMethods" then
        match s.errorInst with
        | none => (s, errFromGoErr tf (GoErr.plain "no error methods"))
        | some none => (s, ⟨"", "", none⟩)
        | some (some e) => (s, errFromGoErr tf e)
      else (s, ⟨"", "", none⟩)

/-- Modelled from the spec: serving one inbound request.  With no root
installed every request fails with the no-service error.  Otherwise
resolution checks, in order: the object type against the method table,
the method name against the object-type entry, and only then runs the
finder and the invoker via `dispatchK`. -/
def serveReqK (k : RootKind) (tf : GoErr → GoErr) (s : RootState)
    (ot oid m : String) (body : Json) : RootState × Response :=
  if k = RootKind.noRoot then (s, errR "no service" "")
  else
    (methodsOfK k ot).elim
      (s, errR ("unknown object type \"" ++ ot ++ "\"") "")
      (fun ms =>
        if m ∈ ms then dispatchK k tf s ot oid m body
        else (s, errR ("no such request \"" ++ m ++ "\" on " ++ ot) ""))

/-- Modelled from the spec: the caller view of one round trip.  A
response header carrying a non-empty error message is delivered as a
`RequestError` with that message and code; otherwise the optional
result body is delivered. -/
def rpcCall (k : RootKind) (tf : GoErr → GoErr) (s : RootState)
    (ot oid m : String) (body : Json) : RootState × Except RequestError (Option Json) :=
  let p := serveReqK k tf s ot oid m body
  if p.2.errMsg = "" then (p.1, Except.ok p.2.body)
  else (p.1, Except.error ⟨p.2.errMsg, p.2.errCode⟩)

/-- Modelled from the spec: decoding a successful response body into
the caller-supplied result sink.  On an error response, on a bodyless
success, or for a caller that supplied no sink, the sink is untouched. -/
def updateSink (sink : stringVal) : Except RequestError (Option Json) → stringVal
  | Except.ok (some b) =>
      match decodeStringVal b with
      | Except.ok v => v
      | Except.error _ => sink
  | _ => sink

/-! ## The `testCall` scenario (embedded from `rpc_test.testCall`) -/

/-- The standard method-shape name `Call<narg>r<nret><e>` used by the
sweep, with the two counts given as Booleans. -/
def methodShapeName (n1 r1 e : Bool) : String :=
  "Call" ++ (if n1 then "1" else "0") ++ "r" ++ (if r1 then "1" else "0")
    ++ (if e then "e" else "")

/-- Outcome of one `testCall` round trip: the final root state, the
error the caller observed (if any), and the caller result sink. -/
structure TestCallResult where
  state : RootState
  err : Option RequestError
  sink : stringVal
deriving DecidableEq

/-- One `testCall` run: a fresh root holding the single `SimpleMethods`
receiver `a99`, with `returnErr` set to `t`, called with argument
`{Val: "arg"}` and a zero-valued result sink. -/
def testCallRun (n1 r1 e t : Bool) : TestCallResult :=
  let s0 : RootState := ⟨[], t, ["a99"], none⟩
  let m := methodShapeName n1 r1 e
  let p := rpcCall RootKind.mainRoot id s0 "SimpleMethods" "a99" m
      (Json.obj [("Val", JVal.jstr "arg")])
  ⟨p.1,
   match p.2 with
   | Except.error e2 => some e2
   | Except.ok _ => none,
   updateSink ⟨""⟩ p.2⟩

/-- The transformer installed by `TestTransformErrors` (embedded from
the test source): a `codedError` is rebuilt with `transformed: `
prefixed to both message and code; any other error becomes a plain
error with `transformed: ` prefixed to its message. -/
def tfErrTest : GoErr → GoErr
  | GoErr.coded m c => GoErr.coded ("transformed: " ++ m) ("transformed: " ++ c)
  | GoErr.plain m => GoErr.plain ("transformed: " ++ m)

/-! ## The framed transport (modelled from the spec)

The inbound side of the transport is a flat token stream: a header
token followed by a body token per message.  The executor must consume
the body even when resolution fails, so the stream stays aligned. -/

inductive Tok where
  | hdr : String → String → String → Nat → Tok
  | body : Json → Tok
deriving DecidableEq

/-- One inbound request before framing: object type, object id, method
name, request id, and argument body. -/
structure Req where
  ot : String
  oid : String
  m : String
  rid : Nat
  argBody : Json
deriving DecidableEq

/-- Frames a request list onto the transport: one header token and one
body token per request. -/
def encodeReqs : List Req → List Tok
  | [] => []
  | r :: rs => Tok.hdr r.ot r.oid r.m r.rid :: Tok.body r.argBody :: encodeReqs rs

/-- Modelled from the spec: the reader loop of the connection engine,
serving inbound requests sequentially.  After reading a header it
always consumes exactly one body token — also when resolution failed —
and emits one response per request.  A stream that is not framed as
header/body pairs is a transport error and stops the loop. -/
def serveLoop (tf : GoErr → GoErr) : RootState → List Tok → RootState × List (Nat × Response)
  | s, [] => (s, [])
  | s, Tok.hdr ot oid m rid :: Tok.body b :: rest =>
      let p := serveReqK RootKind.mainRoot tf s ot oid m b
      let q := serveLoop tf p.1 rest
      (q.1, (rid, p.2) :: q.2)
  | s, Tok.hdr _ _ _ _ :: [] => (s, [])
  | s, Tok.hdr _ _ _ _ :: Tok.hdr _ _ _ _ :: _ => (s, [])
  | s, Tok.body _ :: _ => (s, [])

/-! ## Pending table and lifecycle of outbound calls (modelled from the spec) -/

/-- How a pending outbound call is completed: by its matching response
or by the shutdown error. -/
inductive Outcome where
  | resp
  | shutdown
deriving DecidableEq

/-- Events on the calling side of a connection: a caller issues a call,
the reader loop delivers a response for a request id, the connection is
closed. -/
inductive CEvent where
  | call
  | response : Nat → CEvent
  | close
deriving DecidableEq

/-- The calling-side connection state: the next request id, the pending
request ids, whether the connection is closed, the ids successfully
written, the outcomes delivered to callers, and the number of calls
rejected immediately with the shutdown error because the connection was
already closed. -/
structure ConnState where
  nextId : Nat
  pending : List Nat
  closed : Bool
  written : List Nat
  delivered : List (Nat × Outcome)
  rejectedCalls : Nat
deriving DecidableEq

/-- Modelled from the spec: one step of the outbound-call lifecycle.  A
call on a closed connection returns the shutdown error immediately
(nothing is written, no pending entry is made).  Otherwise a fresh
monotonic id is allocated, the pending entry inserted, and the request
written.  A response completes the matching pending entry and is
discarded as an orphan otherwise.  Close is idempotent: the first close
releases every pending waiter with the shutdown error. -/
def cstep (s : ConnState) : CEvent → ConnState
  | CEvent.call =>
      if s.closed then { s with rejectedCalls := s.rejectedCalls + 1 }
      else { s with
        nextId := s.nextId + 1,
        pending := s.nextId :: s.pending,
        written := s.nextId :: s.written }
  | CEvent.response i =>
      if i ∈ s.pending then
        { s with
          pending := s.pending.erase i,
          delivered := (i, Outcome.resp) :: s.delivered }
      else s
  | CEvent.close =>
      if s.closed then s
      else { s with
        closed := true,
        pending := [],
        delivered := (s.pending.map fun i => (i, Outcome.shutdown)) ++ s.delivered }

/-- The initial calling-side state of a freshly started connection. -/
def cinit : ConnState := ⟨0, [], false, [], [], 0⟩

/-- Runs a calling-side event trace from the initial state. -/
def crun (evs : List CEvent) : ConnState := evs.foldl cstep cinit

/-- The number of completions (pending or delivered) existing for a
request id: its count among the pending entries plus its count among
the delivered outcomes. -/
def occ (s : ConnState) (i : Nat) : Nat :=
  s.pending.count i + (s.delivered.map Prod.fst).count i

/-- The pending-table invariant: every written id is accounted for
exactly once between the pending table and the delivered outcomes, ids
at or above the allocator are fresh, and a closed connection has no
pending entries. -/
def ConnInv (s : ConnState) : Prop :=
  (∀ i, occ s i = if i ∈ s.written then 1 else 0) ∧
  (∀ i, s.nextId ≤ i → occ s i = 0 ∧ i ∉ s.written) ∧
  (s.closed = true → s.pending = [])

/-! ## Root lifecycle and destructor (modelled from the spec) -/

/-- A root object as the destructor contract sees it: an identity and
whether it implements the no-argument `Kill` hook. -/
structure RootObj where
  rid : Nat
  hasKill : Bool
deriving DecidableEq

/-- The lifecycle state of a connection: the installed root (if any),
whether the connection is dead, the kill invocations performed so far
(by root id, in order), and the result of the first close (always a
nil error). -/
structure LifeState where
  current : Option RootObj
  dead : Bool
  kills : List Nat
  closeResult : Option (Option String)
deriving DecidableEq

/-- Lifecycle operations: install (or clear) a root, close the
connection. -/
inductive LEvent where
  | serve : Option RootObj → LEvent
  | close
deriving DecidableEq

/-- The destructor invocations a root uninstallation produces: one for
a root with a `Kill` hook, none otherwise. -/
def killOf : Option RootObj → List Nat
  | some r => if r.hasKill then [r.rid] else []
  | none => []

/-- Modelled from the spec: the lifecycle controller.  Replacing the
root invokes the previous root destructor (once, if it has one); close
invokes the destructor of the installed root, clears the binding, and
returns a nil error; a second close is a no-op returning the first
result; operations after death are no-ops. -/
def lstep (s : LifeState) : LEvent → LifeState
  | LEvent.serve r =>
      if s.dead then s
      else { s with current := r, kills := s.kills ++ killOf s.current }
  | LEvent.close =>
      if s.dead then s
      else { current := none, dead := true,
             kills := s.kills ++ killOf s.current, closeResult := some none }

/-- The initial lifecycle state: no root installed. -/
def linit : LifeState := ⟨none, false, [], none⟩

/-- Runs a lifecycle trace from a given state. -/
def lrunFrom (s : LifeState) (evs : List LEvent) : LifeState := evs.foldl lstep s

/-- Runs a lifecycle trace from the initial state. -/
def lrun (evs : List LEvent) : LifeState := lrunFrom linit evs

/-- The ids of the roots a trace installs, in order. -/
def installedIds : List LEvent → List Nat
  | [] => []
  | LEvent.serve (some r) :: rest => r.rid :: installedIds rest
  | _ :: rest => installedIds rest

/-! ## Root swap while serving (modelled from the spec) -/

/-- The error transformers installed in the scenarios: none (identity)
or the wrapping transformer of the change-API test, which turns any
error into a plain error with message `transformed: <msg>`. -/
inductive Transform where
  | noT
  | transformedT
deriving DecidableEq

/-- Applies an installed transformer to a concrete error value. -/
def applyT : Transform → GoErr → GoErr
  | Transform.noT, e => e
  | Transform.transformedT, e => GoErr.plain ("transformed: " ++ e.message)

/-- A server connection with a swappable root binding: the current
binding (root and transformer), the root state, the in-flight delayed
handlers with the binding captured when each was dispatched, and the
responses emitted so far (most recent first). -/
structure SrvConn where
  binding : RootKind × Transform
  rootState : RootState
  handlers : List (Nat × (RootKind × Transform))
  responses : List (Nat × Response)
deriving DecidableEq

/-- The outcome of a completed `DelayedMethods.Delay` handler: the
value received on `done`, or the error received on `doneError`. -/
inductive DelayOut where
  | done : stringVal → DelayOut
  | fail : GoErr → DelayOut
deriving DecidableEq

/-- Server-side events: an ordinary request served to completion, the
dispatch of a blocking `DelayedMethods.Delay` handler, the installation
of a replacement binding by `serve`, and the completion of a delayed
handler with its result or error. -/
inductive SEvent where
  | request : Nat → String → String → String → Json → SEvent
  | dispatchDelayed : Nat → SEvent
  | serveNew : RootKind × Transform → SEvent
  | finishDelayed : Nat → DelayOut → SEvent
deriving DecidableEq

/-- Whether an event dispatches the delayed handler with this id. -/
def isDispatch (rid : Nat) : SEvent → Bool
  | SEvent.dispatchDelayed r => r == rid
  | _ => false

/-- The response a completed `DelayedMethods.Delay` handler produces,
through the transformer of the binding captured at dispatch. -/
def delayedResp (t : Transform) : DelayOut → Response
  | DelayOut.fail e => errFromGoErr (applyT t) e
  | DelayOut.done v => ⟨"", "", some (encodeStringVal v)⟩

/-- Modelled from the spec: the root binder.  A request is resolved and
executed against the binding current at its dispatch; `serve` replaces
the binding atomically; a handler dispatched earlier keeps the binding
it was dispatched under and its completion is mapped through that
binding transformer. -/
def sstep (c : SrvConn) : SEvent → SrvConn
  | SEvent.request rid ot oid m body =>
      let p := serveReqK c.binding.1 (applyT c.binding.2) c.rootState ot oid m body
      { c with rootState := p.1, responses := (rid, p.2) :: c.responses }
  | SEvent.dispatchDelayed rid =>
      { c with handlers := (rid, c.binding) :: c.handlers }
  | SEvent.serveNew b => { c with binding := b }
  | SEvent.finishDelayed rid res =>
      match c.handlers.lookup rid with
      | some b => { c with responses := (rid, delayedResp b.2 res) :: c.responses }
      | none => c

/-- Runs a server-side event trace from a given connection state. -/
def srun (c : SrvConn) (evs : List SEvent) : SrvConn := evs.foldl sstep c

/-! ## The JSON codec (test connection embedded from `jsoncodec_test`) -/

/-- A read failure as the codec reports it: end of input or a receive
error with a message. -/
inductive ReadErr where
  | eof
  | recvErr : String → ReadErr
deriving DecidableEq

/-- The `testConn` fixture: a scripted list of inbound messages, an
error to report once they are exhausted (when set), and a closed flag. -/
structure TestConn where
  readMsgs : List Json
  err : Option String
  closed : Bool
deriving DecidableEq

/-- `testConn.Receive`: pops the next scripted message; once exhausted,
reports the configured error, or end of input when none is set. -/
def connReceive (c : TestConn) : TestConn × Except ReadErr Json :=
  match c.readMsgs with
  | m :: rest => ({ c with readMsgs := rest }, Except.ok m)
  | [] =>
      match c.err with
      | some e => (c, Except.error (ReadErr.recvErr e))
      | none => (c, Except.error ReadErr.eof)

/-- The JSON codec over a test connection, with its close latch. -/
structure JsonCodec where
  conn : TestConn
  closed : Bool
deriving DecidableEq

/-- Modelled from the spec: the codec `read_header` operation (the
jsoncodec implementation is not among the sources).  Once the codec has
been closed, every read reports end of input without touching the
connection; otherwise one message is received and a receive failure is
reported as `error receiving message: <err>`. -/
def codecReadHeader (c : JsonCodec) : JsonCodec × Except ReadErr Json :=
  if c.closed then (c, Except.error ReadErr.eof)
  else
    let p := connReceive c.conn
    match p.2 with
    | Except.ok m => ({ c with conn := p.1 }, Except.ok m)
    | Except.error ReadErr.eof => ({ c with conn := p.1 }, Except.error ReadErr.eof)
    | Except.error (ReadErr.recvErr e) =>
        ({ c with conn := p.1 }, Except.error (ReadErr.recvErr ("error receiving message: " ++ e)))

/-- Modelled from the spec: the codec `close` operation — it closes the
underlying connection, latches the codec closed, and returns a nil
error. -/
def codecClose (c : JsonCodec) : JsonCodec × Option String :=
  (⟨{ c.conn with closed := true }, true⟩, none)

/-- The result of the `(n+1)`-th consecutive `read_header` call. -/
def readHeaderN : JsonCodec → Nat → JsonCodec × Except ReadErr Json
  | c, 0 => codecReadHeader c
  | c, Nat.succ n => readHeaderN (codecReadHeader c).1 n

/-! ## Re-entrant factorial (body embedded from `CallbackMethods.Factorial`) -/

/-- Modelled from the spec: an outbound call to
`CallbackMethods.Factorial` on a bidirectional connection, fuelled by
the recursion depth.  If the target end is not serving, the call fails
with the no-service request error.  Otherwise the `Factorial` body runs
(embedded from the test source): at `n ≤ 1` it returns 1, else it
issues the nested call for `n - 1` back on the same connection — whose
target is the original caller — and multiplies; a nested request error
is returned as the method error, so its display string becomes the wire
message of the outer response. -/
def factCall : Nat → Bool → Bool → Int → Except RequestError Int
  | 0, _, _, _ => Except.error ⟨"out of fuel", ""⟩
  | Nat.succ fuel, targetServes, callerServes, n =>
      if targetServes = false then Except.error ⟨"no service", ""⟩
      else if n ≤ 1 then Except.ok 1
      else
        match factCall fuel callerServes targetServes (n - 1) with
        | Except.error e => Except.error ⟨RequestError.errString e, e.Code⟩
        | Except.ok r => Except.ok (n * r)

/-! ## Helper lemmas -/

/-- Appending to a non-empty string yields a non-empty string. -/
theorem str_append_ne_empty (a b : String) (ha : a ≠ "") : a ++ b ≠ "" := by
  intro h
  apply ha
  have hd := congrArg String.data h
  rw [String.data_append] at hd
  have h1 : a.data = [] := (List.append_eq_nil.mp hd).1
  exact String.ext h1

/-- On a framed stream the reader loop emits exactly one response per
request, carrying the request id, in order — also for requests that
fail resolution or decoding. -/
theorem serveLoop_rids (tf : GoErr → GoErr) (reqs : List Req) :
    ∀ s : RootState,
      ((serveLoop tf s (encodeReqs reqs)).2).map Prod.fst = reqs.map Req.rid := by
  induction reqs with
  | nil => intro s; simp [encodeReqs, serveLoop]
  | cons r rs ih => intro s; simp [encodeReqs, serveLoop, ih]

/-- A closed codec reports end of input and stays unchanged. -/
theorem codecReadHeader_closed (c : JsonCodec) (h : c.closed = true) :
    codecReadHeader c = (c, Except.error ReadErr.eof) := by
  simp [codecReadHeader, h]

/-- Every consecutive read on a closed codec reports end of input. -/
theorem readHeaderN_closed : ∀ (n : Nat) (c : JsonCodec), c.closed = true →
    readHeaderN c n = (c, Except.error ReadErr.eof) := by
  intro n
  induction n with
  | zero => intro c h; simp [readHeaderN, codecReadHeader_closed c h]
  | succ k ih => intro c h; simp [readHeaderN, codecReadHeader_closed c h, ih c h]

/-- The binding captured by a dispatched handler survives any sequence
of later events that does not dispatch the same id again — in
particular any number of root swaps. -/
theorem lookup_preserved :
    ∀ (evs : List SEvent) (c : SrvConn) (rid : Nat) (b : RootKind × Transform),
      c.handlers.lookup rid = some b →
      (∀ e ∈ evs, isDispatch rid e = false) →
      (srun c evs).handlers.lookup rid = some b := by
  intro evs
  induction evs with
  | nil => intro c rid b h _; simpa [srun] using h
  | cons e rest ih =>
      intro c rid b h hall
      have he : isDispatch rid e = false := hall e (by simp)
      have hrest : ∀ e2 ∈ rest, isDispatch rid e2 = false := fun e2 m => hall e2 (by simp [m])
      have hstep : (sstep c e).handlers.lookup rid = some b := by
        cases e with
        | request r ot oid m body => simpa [sstep] using h
        | dispatchDelayed r =>
            have hne : (r == rid) = false := by simpa [isDispatch] using he
            have hne2 : (rid == r) = false := by
              simp only [beq_eq_false_iff_ne] at hne ⊢
              exact fun hc => hne hc.symm
            simpa [sstep, List.lookup, hne2] using h
        | serveNew b2 => simpa [sstep] using h
        | finishDelayed r res =>
            cases hl : c.handlers.lookup r with
            | none => simpa [sstep, hl] using h
            | some b2 => simpa [sstep, hl] using h
      have hfold : srun c (e :: rest) = srun (sstep c e) rest := by
        simp [srun, List.foldl_cons]
      rw [hfold]
      exact ih (sstep c e) rid b hstep hrest

/-- One step of the calling-side lifecycle preserves the pending-table
invariant. -/
theorem cstep_inv (s : ConnState) (e : CEvent) (hs : ConnInv s) : ConnInv (cstep s e) := by
  obtain ⟨h1, h2, h3⟩ := hs
  cases e with
  | call =>
      by_cases hc : s.closed = true
      · have hstep : cstep s CEvent.call = { s with rejectedCalls := s.rejectedCalls + 1 } := by
          simp [cstep, hc]
        rw [hstep]
        exact ⟨h1, h2, h3⟩
      · have hstep : cstep s CEvent.call =
            { s with
              nextId := s.nextId + 1
              pending := s.nextId :: s.pending
              written := s.nextId :: s.written } := by
          simp [cstep, hc]
        rw [hstep]
        refine ⟨?_, ?_, ?_⟩
        · intro i
          have h1i := h1 i
          simp only [occ] at h1i ⊢
          by_cases hi : i = s.nextId
          · subst hi
            have hocc0 := (h2 s.nextId le_rfl).1
            simp only [occ] at hocc0
            simp only [List.count_cons_self, List.mem_cons, true_or, if_true]
            omega
          · simp only [List.count_cons_of_ne hi, List.mem_cons, hi, false_or]
            exact h1i
        · intro i hi
          have hi2 : s.nextId + 1 ≤ i := hi
          have hle : s.nextId ≤ i := Nat.le_of_succ_le hi2
          have hne : i ≠ s.nextId := by omega
          have ho := (h2 i hle).1
          have hw := (h2 i hle).2
          simp only [occ] at ho ⊢
          constructor
          · simp only [List.count_cons_of_ne hne]
            exact ho
          · simp [List.mem_cons, hne, hw]
        · intro hcc
          exact absurd hcc hc
  | response i =>
      by_cases hp : i ∈ s.pending
      · have hstep : cstep s (CEvent.response i) =
            { s with
              pending := s.pending.erase i
              delivered := (i, Outcome.resp) :: s.delivered } := by
          simp [cstep, hp]
        rw [hstep]
        have hpos : 0 < s.pending.count i := List.count_pos_iff.mpr hp
        refine ⟨?_, ?_, ?_⟩
        · intro j
          have h1j := h1 j
          simp only [occ] at h1j ⊢
          by_cases hj : j = i
          · subst hj
            simp only [List.count_erase_self, List.map_cons, List.count_cons_self]
            omega
          · simp only [List.count_erase_of_ne hj, List.map_cons,
              List.count_cons_of_ne hj]
            exact h1j
        · intro j hj
          have ho := (h2 j hj).1
          have hw := (h2 j hj).2
          have hne : j ≠ i := by
            intro hji
            subst hji
            simp only [occ] at ho
            omega
          simp only [occ] at ho ⊢
          constructor
          · simp only [List.count_erase_of_ne hne, List.map_cons,
              List.count_cons_of_ne hne]
            exact ho
          · exact hw
        · intro hcc
          exact absurd (h3 hcc ▸ hp) (List.not_mem_nil i)
      · have hstep : cstep s (CEvent.response i) = s := by
          simp [cstep, hp]
        rw [hstep]
        exact ⟨h1, h2, h3⟩
  | close =>
      by_cases hc : s.closed = true
      · have hstep : cstep s CEvent.close = s := by
          simp [cstep, hc]
        rw [hstep]
        exact ⟨h1, h2, h3⟩
      · have hstep : cstep s CEvent.close =
            { s with
              closed := true
              pending := []
              delivered := (s.pending.map fun i => (i, Outcome.shutdown)) ++ s.delivered } := by
          simp [cstep, hc]
        rw [hstep]
        have hmap : (s.pending.map fun i => (i, Outcome.shutdown)).map Prod.fst = s.pending := by
          simp [List.map_map, Function.comp_def]
        refine ⟨?_, ?_, ?_⟩
        · intro j
          have h1j := h1 j
          simp only [occ] at h1j ⊢
          simp only [List.map_append, hmap, List.count_append, List.count_nil]
          omega
        · intro j hj
          have ho := (h2 j hj).1
          have hw := (h2 j hj).2
          simp only [occ] at ho ⊢
          refine ⟨?_, hw⟩
          simp only [List.map_append, hmap, List.count_append, List.count_nil]
          omega
        · intro _
          rfl

/-- The pending-table invariant holds after every event trace. -/
theorem crun_inv (evs : List CEvent) : ConnInv (crun evs) := by
  have h0 : ConnInv cinit := by
    refine ⟨?_, ?_, ?_⟩
    · intro i; simp [cinit, occ]
    · intro i _; simp [cinit, occ]
    · intro h; rfl
  suffices h : ∀ (l : List CEvent) (s : ConnState), ConnInv s → ConnInv (l.foldl cstep s) by
    exact h evs cinit h0
  intro l
  induction l with
  | nil => intro s hs; simpa using hs
  | cons e rest ih => intro s hs; simpa [List.foldl_cons] using ih _ (cstep_inv s e hs)

/-- Along any lifecycle trace whose installed roots are pairwise
distinct, the performed kills together with the pending kill of the
installed root form a duplicate-free list. -/
theorem lkills_nodup :
    ∀ (evs : List LEvent) (s : LifeState),
      (s.kills ++ killOf s.current).Nodup →
      (∀ i ∈ s.kills ++ killOf s.current, i ∉ installedIds evs) →
      (installedIds evs).Nodup →
      ((lrunFrom s evs).kills ++ killOf (lrunFrom s evs).current).Nodup := by
  intro evs
  induction evs with
  | nil => intro s h _ _; simpa [lrunFrom] using h
  | cons e rest ih =>
      intro s h hfut hnd
      have hstep : lrunFrom s (e :: rest) = lrunFrom (lstep s e) rest := by
        simp [lrunFrom, List.foldl_cons]
      rw [hstep]
      cases e with
      | serve ro =>
          by_cases hd : s.dead = true
          · have heq : lstep s (LEvent.serve ro) = s := by simp [lstep, hd]
            rw [heq]
            refine ih s h ?_ ?_
            · intro i hi
              have := hfut i hi
              cases ro with
              | none => simpa [installedIds] using this
              | some r =>
                  simp only [installedIds, List.mem_cons] at this
                  exact fun hmem => this (Or.inr hmem)
            · cases ro with
              | none => simpa [installedIds] using hnd
              | some r =>
                  simp only [installedIds, List.nodup_cons] at hnd
                  exact hnd.2
          · cases ro with
            | none =>
                have heq : lstep s (LEvent.serve none) =
                    { s with current := none, kills := s.kills ++ killOf s.current } := by
                  simp [lstep, hd]
                rw [heq]
                refine ih _ ?_ ?_ ?_
                · simpa [killOf] using h
                · intro i hi
                  simp only [killOf, List.append_nil] at hi
                  exact hfut i hi
                · simpa [installedIds] using hnd
            | some r =>
                have heq : lstep s (LEvent.serve (some r)) =
                    { s with current := some r, kills := s.kills ++ killOf s.current } := by
                  simp [lstep, hd]
                rw [heq]
                simp only [installedIds, List.nodup_cons] at hnd
                obtain ⟨hr, hnd2⟩ := hnd
                refine ih _ ?_ ?_ hnd2
                · simp only
                  rw [List.nodup_append]
                  refine ⟨h, ?_, ?_⟩
                  · cases hk : r.hasKill <;> simp [killOf, hk]
                  · intro a ha hb
                    have hnotin := hfut a ha
                    simp only [killOf] at hb
                    by_cases hk : r.hasKill = true
                    · simp [hk] at hb
                      subst hb
                      exact hnotin (by simp [installedIds])
                    · simp [Bool.not_eq_true] at hk
                      simp [hk] at hb
                · intro i hi
                  simp only [List.mem_append] at hi
                  cases hi with
                  | inl hi2 =>
                      have := hfut i (List.mem_append.mpr hi2)
                      simp only [installedIds, List.mem_cons] at this
                      exact fun hmem => this (Or.inr hmem)
                  | inr hi2 =>
                      simp only [killOf] at hi2
                      by_cases hk : r.hasKill = true
                      · simp [hk] at hi2
                        subst hi2
                        exact hr
                      · simp [Bool.not_eq_true] at hk
                        simp [hk] at hi2
      | close =>
          by_cases hd : s.dead = true
          · have heq : lstep s LEvent.close = s := by simp [lstep, hd]
            rw [heq]
            refine ih s h ?_ ?_
            · intro i hi
              simpa [installedIds] using hfut i hi
            · simpa [installedIds] using hnd
          · have heq : lstep s LEvent.close =
                ⟨none, true, s.kills ++ killOf s.current, some none⟩ := by
              simp [lstep, hd]
            rw [heq]
            refine ih _ ?_ ?_ ?_
            · simpa [killOf] using h
            · intro i hi
              simp only [killOf, List.append_nil] at hi
              simpa [installedIds] using hfut i hi
            · simpa [installedIds] using hnd

/-! ## Claim theorems -/

/-- Claim C1: for every method shape `Call<N>r<M>[e]` with N,M in
{0,1} registered under object-type `SimpleMethods`, a call with
argument `{Val: "arg"}` invokes the underlying method exactly once; the
method observes argument `{Val: "arg"}` iff N=1 (and nil otherwise);
the caller result sink equals `{Val: "Call<N>r<M>[e] ret"}` iff M=1 and
no error is reported; and when the method returns a non-nil error, the
call returns a request error carrying that error message and the
result sink is left zero-valued. -/
theorem C1_method_shape_sweep :
    ∀ n1 r1 e t : Bool,
      (testCallRun n1 r1 e t).state.calls =
        [⟨"a99", methodShapeName n1 r1 e, if n1 then some ⟨"arg"⟩ else none⟩] ∧
      (testCallRun n1 r1 e t).err =
        (if e && t then some ⟨"error calling " ++ methodShapeName n1 r1 e, ""⟩ else none) ∧
      (testCallRun n1 r1 e t).sink =
        (if r1 && !(e && t) then ⟨methodShapeName n1 r1 e ++ " ret"⟩ else ⟨""⟩) := by
  decide

/-- Claim C2: for every outbound call whose request was successfully
written, exactly one of a matching response or a shutdown error is
delivered to the caller; closing the connection while a call is pending
completes that call with the shutdown error, and any call issued after
close returns the shutdown error immediately, without being written. -/
theorem C2_pending_integrity :
    (∀ (evs : List CEvent) (i : Nat), i ∈ (crun evs).written →
        (crun evs).pending.count i + ((crun evs).delivered.map Prod.fst).count i = 1) ∧
    (∀ (evs : List CEvent) (i : Nat), (crun evs).closed = true → i ∈ (crun evs).written →
        ((crun evs).delivered.map Prod.fst).count i = 1) ∧
    (∀ evs : List CEvent, (crun evs).closed = true →
        crun (evs ++ [CEvent.call]) =
          { crun evs with rejectedCalls := (crun evs).rejectedCalls + 1 }) ∧
    ((crun [CEvent.call, CEvent.close]).delivered = [(0, Outcome.shutdown)]) := by
  refine ⟨?_, ?_, ?_, by decide⟩
  · intro evs i hi
    have h := (crun_inv evs).1 i
    simpa [occ, hi] using h
  · intro evs i hc hi
    have h := (crun_inv evs).1 i
    have hp : (crun evs).pending = [] := (crun_inv evs).2.2 hc
    simp [occ, hi, hp] at h
    exact h
  · intro evs hc
    have hsplit : crun (evs ++ [CEvent.call]) = cstep (crun evs) CEvent.call := by
      simp [crun, List.foldl_append]
    rw [hsplit]
    simp [cstep, hc]

theorem C2_pending_integrity_witness :
    (crun [CEvent.call, CEvent.close]).closed = true ∧
    0 ∈ (crun [CEvent.call, CEvent.close]).written ∧
    ((crun [CEvent.call, CEvent.close]).delivered.map Prod.fst).count 0 = 1 :=
  ⟨by decide, by decide,
   C2_pending_integrity.2.1 [CEvent.call, CEvent.close] 0 (by decide) (by decide)⟩

/-- Claim C3: for every inbound request that fails with an
unknown-object-type, unknown-request, or decode error, the failure is
reported to the caller as a request error, the connection survives, and
a subsequent well-formed request on the same connection succeeds —
every framed request receives exactly one response because the failed
request body was still consumed. -/
theorem C3_framing_survival :
    (∀ (tf : GoErr → GoErr) (reqs : List Req) (s : RootState),
        ((serveLoop tf s (encodeReqs reqs)).2).map Prod.fst = reqs.map Req.rid) ∧
    serveLoop id ⟨[], false, ["a0"], none⟩
        [Tok.hdr "BadSomething" "a0" "No" 1, Tok.body (Json.obj []),
         Tok.hdr "SimpleMethods" "xx" "No" 2, Tok.body (Json.obj []),
         Tok.hdr "SimpleMethods" "a0" "SliceArg" 3,
           Tok.body (Json.obj [("X", JVal.jmap [("hello", 65)])]),
         Tok.hdr "SimpleMethods" "a0" "SliceArg" 4,
           Tok.body (Json.obj [("X", JVal.jstrs ["one"])])] =
      (⟨[], false, ["a0"], none⟩,
       [(1, errR "unknown object type \"BadSomething\"" ""),
        (2, errR "no such request \"No\" on SimpleMethods" ""),
        (3, errR "json: cannot unmarshal object into Go value of type []string" ""),
        (4, ⟨"", "", some (encodeStringVal ⟨"SliceArg ret"⟩)⟩)]) ∧
    RequestError.errString ⟨"json: cannot unmarshal object into Go value of type []string", ""⟩ =
      "request error: json: cannot unmarshal object into Go value of type []string" := by
  exact ⟨fun tf reqs s => serveLoop_rids tf reqs s, by decide, by decide⟩

/-- Claim C4: resolution of an inbound call checks in this order: an
object type missing from the method table fails with an
unknown-object-type error naming the type; a method name that is not a
method of the object type fails with a no-such-request error even when
the object id is also unknown (the finder does not run); otherwise the
finder is called with the object id and any error it returns is
propagated unchanged to the caller as the request error. -/
theorem C4_resolution_order :
    ∀ (s : RootState) (ot oid m : String) (body : Json),
      (methodsOfK RootKind.mainRoot ot = none →
        rpcCall RootKind.mainRoot id s ot oid m body =
          (s, Except.error ⟨"unknown object type \"" ++ ot ++ "\"", ""⟩)) ∧
      (m ∉ simpleMethodNames →
        rpcCall RootKind.mainRoot id s "SimpleMethods" oid m body =
          (s, Except.error ⟨"no such request \"" ++ m ++ "\" on " ++ "SimpleMethods", ""⟩)) ∧
      (oid ∉ s.simpleIds → m ∈ simpleMethodNames →
        rpcCall RootKind.mainRoot id s "SimpleMethods" oid m body =
          (s, Except.error ⟨"unknown SimpleMethods id", ""⟩)) := by
  intro s ot oid m body
  refine ⟨?_, ?_, ?_⟩
  · intro h
    have hne : ("unknown object type \"" ++ ot ++ "\"") ≠ "" :=
      str_append_ne_empty _ _ (str_append_ne_empty _ _ (by decide))
    simp [rpcCall, serveReqK, h, Option.elim, errR, hne]
  · intro h
    have hne : ("no such request \"" ++ m ++ "\" on " ++ "SimpleMethods") ≠ "" :=
      str_append_ne_empty _ _ (str_append_ne_empty _ _ (str_append_ne_empty _ _ (by decide)))
    have hm : methodsOfK RootKind.mainRoot "SimpleMethods" = some simpleMethodNames := by decide
    simp [rpcCall, serveReqK, hm, Option.elim, errR, h, hne]
  · intro h1 h2
    have hm : methodsOfK RootKind.mainRoot "SimpleMethods" = some simpleMethodNames := by decide
    simp [rpcCall, serveReqK, hm, Option.elim, h2, dispatchK, h1, errFromGoErr, errR,
      GoErr.message, GoErr.errorCode]

theorem C4_resolution_order_witness :
    (methodsOfK RootKind.mainRoot "BadSomething" = none ∧
     rpcCall RootKind.mainRoot id ⟨[], false, ["a0"], none⟩ "BadSomething" "a0" "No" Json.null =
       (⟨[], false, ["a0"], none⟩,
        Except.error ⟨"unknown object type \"" ++ "BadSomething" ++ "\"", ""⟩)) ∧
    ("No" ∉ simpleMethodNames ∧
     rpcCall RootKind.mainRoot id ⟨[], false, ["a0"], none⟩ "SimpleMethods" "xx" "No" Json.null =
       (⟨[], false, ["a0"], none⟩,
        Except.error ⟨"no such request \"" ++ "No" ++ "\" on " ++ "SimpleMethods", ""⟩)) ∧
    ("xx" ∉ (⟨[], false, ["a0"], none⟩ : RootState).simpleIds ∧
     "Call0r0" ∈ simpleMethodNames ∧
     rpcCall RootKind.mainRoot id ⟨[], false, ["a0"], none⟩ "SimpleMethods" "xx" "Call0r0" Json.null =
       (⟨[], false, ["a0"], none⟩, Except.error ⟨"unknown SimpleMethods id", ""⟩)) :=
  ⟨⟨by decide,
    (C4_resolution_order ⟨[], false, ["a0"], none⟩ "BadSomething" "a0" "No" Json.null).1
      (by decide)⟩,
   ⟨by decide,
    (C4_resolution_order ⟨[], false, ["a0"], none⟩ "BadSomething" "xx" "No" Json.null).2.1
      (by decide)⟩,
   ⟨by decide, by decide,
    (C4_resolution_order ⟨[], false, ["a0"], none⟩ "BadSomething" "xx" "Call0r0" Json.null).2.2
      (by decide) (by decide)⟩⟩

/-- Claim C5: after `serve` installs a replacement root while the
connection is running, new requests naming object types of the new root
succeed, new requests naming object types that existed only on the
previous root fail with an unknown-object-type error, and a handler
dispatched before the swap continues to run against the previous root,
its returned error passing through the previous root error
transformer. -/
theorem C5_root_swap_binding :
    (∀ (c : SrvConn) (evs : List SEvent) (rid : Nat) (b : RootKind × Transform)
        (res : DelayOut),
        c.handlers.lookup rid = some b →
        (∀ e ∈ evs, isDispatch rid e = false) →
        (srun c (evs ++ [SEvent.finishDelayed rid res])).responses =
          (rid, delayedResp b.2 res) :: (srun c evs).responses) ∧
    ((srun ⟨(RootKind.mainRoot, Transform.noT), ⟨[], false, [], none⟩, [], []⟩
        [SEvent.request 1 "NewlyAvailable" "" "NewMethod" Json.null,
         SEvent.serveNew (RootKind.changedRoot, Transform.noT),
         SEvent.request 2 "ChangeAPIMethods" "" "ChangeAPI" Json.null,
         SEvent.request 3 "NewlyAvailable" "" "NewMethod" Json.null]).responses =
      [(3, ⟨"", "", some (encodeStringVal ⟨"new method result"⟩)⟩),
       (2, errR "unknown object type \"ChangeAPIMethods\"" ""),
       (1, errR "unknown object type \"NewlyAvailable\"" "")]) ∧
    ((srun ⟨(RootKind.mainRoot, Transform.transformedT), ⟨[], false, [], none⟩, [], []⟩
        [SEvent.dispatchDelayed 1,
         SEvent.serveNew (RootKind.changedRoot, Transform.noT),
         SEvent.finishDelayed 1 (DelayOut.fail (GoErr.plain "an error"))]).responses =
      [(1, errR "transformed: an error" "")]) ∧
    RequestError.errString ⟨"transformed: an error", ""⟩ =
      "request error: transformed: an error" := by
  refine ⟨?_, by decide, by decide, by decide⟩
  intro c evs rid b res h hall
  have hsplit : srun c (evs ++ [SEvent.finishDelayed rid res]) =
      sstep (srun c evs) (SEvent.finishDelayed rid res) := by
    simp [srun, List.foldl_append]
  rw [hsplit]
  have hl := lookup_preserved evs c rid b h hall
  simp [sstep, hl]

theorem C5_root_swap_binding_witness :
    ((⟨(RootKind.mainRoot, Transform.transformedT), ⟨[], false, [], none⟩,
        [(1, (RootKind.mainRoot, Transform.transformedT))], []⟩ : SrvConn)).handlers.lookup 1 =
      some (RootKind.mainRoot, Transform.transformedT) ∧
    (∀ e ∈ [SEvent.serveNew (RootKind.changedRoot, Transform.noT)], isDispatch 1 e = false) ∧
    (srun ⟨(RootKind.mainRoot, Transform.transformedT), ⟨[], false, [], none⟩,
        [(1, (RootKind.mainRoot, Transform.transformedT))], []⟩
      ([SEvent.serveNew (RootKind.changedRoot, Transform.noT)] ++
        [SEvent.finishDelayed 1 (DelayOut.fail (GoErr.plain "an error"))])).responses =
      (1, delayedResp Transform.transformedT (DelayOut.fail (GoErr.plain "an error"))) ::
        (srun ⟨(RootKind.mainRoot, Transform.transformedT), ⟨[], false, [], none⟩,
            [(1, (RootKind.mainRoot, Transform.transformedT))], []⟩
          [SEvent.serveNew (RootKind.changedRoot, Transform.noT)]).responses :=
  ⟨by decide, by decide,
   C5_root_swap_binding.1
     ⟨(RootKind.mainRoot, Transform.transformedT), ⟨[], false, [], none⟩,
       [(1, (RootKind.mainRoot, Transform.transformedT))], []⟩
     [SEvent.serveNew (RootKind.changedRoot, Transform.noT)]
     1 (RootKind.mainRoot, Transform.transformedT)
     (DelayOut.fail (GoErr.plain "an error")) (by decide) (by decide)⟩

/-- Claim C6: across any sequence of serve and close operations on a
connection (each root value installed at most once), a root that
implements a no-argument `Kill` method has it invoked at most once; the
root installed at teardown has it invoked exactly once, within the
close step; and a root without such a method causes no error — close
still returns a nil result and performs no kill. -/
theorem C6_destructor_at_most_once :
    (∀ (evs : List LEvent) (i : Nat), (installedIds evs).Nodup →
        (lrun evs).kills.count i ≤ 1) ∧
    (∀ (evs : List LEvent) (r : RootObj), (installedIds evs).Nodup →
        (lrun evs).dead = false → (lrun evs).current = some r → r.hasKill = true →
        (lrun (evs ++ [LEvent.close])).kills.count r.rid = 1 ∧
        (lrun (evs ++ [LEvent.close])).dead = true ∧
        (lrun (evs ++ [LEvent.close])).closeResult = some none) ∧
    (∀ (evs : List LEvent) (r : RootObj),
        (lrun evs).dead = false → (lrun evs).current = some r → r.hasKill = false →
        (lrun (evs ++ [LEvent.close])).kills = (lrun evs).kills ∧
        (lrun (evs ++ [LEvent.close])).closeResult = some none) ∧
    (lrun [LEvent.serve (some ⟨0, true⟩), LEvent.close] = ⟨none, true, [0], some none⟩) := by
  have hbase : ∀ evs : List LEvent, (installedIds evs).Nodup →
      ((lrun evs).kills ++ killOf (lrun evs).current).Nodup := by
    intro evs h
    exact lkills_nodup evs linit (by simp [linit, killOf]) (by simp [linit, killOf]) h
  have hsplit : ∀ evs : List LEvent,
      lrun (evs ++ [LEvent.close]) = lstep (lrun evs) LEvent.close := by
    intro evs
    simp [lrun, lrunFrom, List.foldl_append]
  refine ⟨?_, ?_, ?_, by decide⟩
  · intro evs i h
    have hn : (lrun evs).kills.Nodup := (List.nodup_append.mp (hbase evs h)).1
    exact List.nodup_iff_count_le_one.mp hn i
  · intro evs r h hdead hcur hk
    have hn := hbase evs h
    rw [hcur] at hn
    simp only [killOf, hk, if_true] at hn
    have hdisj := (List.nodup_append.mp hn).2.2
    have hnotmem : r.rid ∉ (lrun evs).kills := by
      intro hmem
      exact hdisj hmem (by simp)
    have hcount0 : (lrun evs).kills.count r.rid = 0 := by
      simpa [List.count_eq_zero] using hnotmem
    rw [hsplit evs]
    have hstep : lstep (lrun evs) LEvent.close =
        ⟨none, true, (lrun evs).kills ++ killOf (lrun evs).current, some none⟩ := by
      simp [lstep, hdead]
    rw [hstep]
    refine ⟨?_, rfl, rfl⟩
    simp only [hcur, killOf, hk, if_true]
    simp [List.count_append, hcount0]
  · intro evs r hdead hcur hk
    rw [hsplit evs]
    have hstep : lstep (lrun evs) LEvent.close =
        ⟨none, true, (lrun evs).kills ++ killOf (lrun evs).current, some none⟩ := by
      simp [lstep, hdead]
    rw [hstep]
    refine ⟨?_, rfl⟩
    simp [hcur, killOf, hk]

theorem C6_destructor_at_most_once_witness :
    ((installedIds [LEvent.serve (some ⟨2, true⟩)]).Nodup ∧
     (lrun [LEvent.serve (some ⟨2, true⟩)]).dead = false ∧
     (lrun [LEvent.serve (some ⟨2, true⟩)]).current = some ⟨2, true⟩ ∧
     (lrun ([LEvent.serve (some ⟨2, true⟩)] ++ [LEvent.close])).kills.count 2 = 1) ∧
    ((lrun [LEvent.serve (some ⟨3, false⟩)]).current = some ⟨3, false⟩ ∧
     (lrun ([LEvent.serve (some ⟨3, false⟩)] ++ [LEvent.close])).kills =
       (lrun [LEvent.serve (some ⟨3, false⟩)]).kills) ∧
    ((installedIds [LEvent.serve (some ⟨0, true⟩), LEvent.serve (some ⟨1, true⟩),
        LEvent.close]).Nodup ∧
     (lrun [LEvent.serve (some ⟨0, true⟩), LEvent.serve (some ⟨1, true⟩),
        LEvent.close]).kills.count 0 ≤ 1) :=
  ⟨⟨by decide, by decide, by decide,
    (C6_destructor_at_most_once.2.1 [LEvent.serve (some ⟨2, true⟩)] ⟨2, true⟩
      (by decide) (by decide) (by decide) (by decide)).1⟩,
   ⟨by decide,
    (C6_destructor_at_most_once.2.2.1 [LEvent.serve (some ⟨3, false⟩)] ⟨3, false⟩
      (by decide) (by decide) (by decide)).1⟩,
   ⟨by decide,
    C6_destructor_at_most_once.1
      [LEvent.serve (some ⟨0, true⟩), LEvent.serve (some ⟨1, true⟩), LEvent.close] 0
      (by decide)⟩⟩

/-- Claim C7: for every call, extra fields in the sent argument are
silently ignored by the server (it decodes only the fields of its
declared argument type); a nil argument sent to a method that takes one
yields no error and the method observes a zero-valued argument; a
non-nil argument sent to a method that takes none is decoded and
discarded without error; and when the method returns no result but the
caller supplied a result sink, the sink is left untouched. -/
theorem C7_forward_compatibility :
    (∀ (fs : List (String × JVal)) (v : String),
        fs.lookup "Val" = some (JVal.jstr v) →
        decodeStringVal (Json.obj fs) = Except.ok ⟨v⟩) ∧
    (rpcCall RootKind.mainRoot id ⟨[], false, ["a0"], none⟩ "SimpleMethods" "a0" "Call1r1"
        (Json.obj [("Val", JVal.jstr "x"), ("Extra", JVal.jstr "y")]) =
      (⟨[⟨"a0", "Call1r1", some ⟨"x"⟩⟩], false, ["a0"], none⟩,
       Except.ok (some (encodeStringVal ⟨"Call1r1 ret"⟩)))) ∧
    (rpcCall RootKind.mainRoot id ⟨[], false, ["a0"], none⟩ "SimpleMethods" "a0" "Call1r1"
        Json.null =
      (⟨[⟨"a0", "Call1r1", some ⟨""⟩⟩], false, ["a0"], none⟩,
       Except.ok (some (encodeStringVal ⟨"Call1r1 ret"⟩)))) ∧
    (rpcCall RootKind.mainRoot id ⟨[], false, ["a0"], none⟩ "SimpleMethods" "a0" "Call0r0"
        (Json.obj [("Val", JVal.jstr "x")]) =
      (⟨[⟨"a0", "Call0r0", none⟩], false, ["a0"], none⟩, Except.ok none)) ∧
    (updateSink ⟨"zzz"⟩
        (rpcCall RootKind.mainRoot id ⟨[], false, ["a0"], none⟩ "SimpleMethods" "a0" "Call1r0"
          (Json.obj [("Val", JVal.jstr "x")])).2 = ⟨"zzz"⟩) := by
  refine ⟨?_, by decide, by decide, by decide, by decide⟩
  intro fs v h
  simp [decodeStringVal, h]

theorem C7_forward_compatibility_witness :
    [("Val", JVal.jstr "x"), ("Extra", JVal.jstr "y")].lookup "Val" = some (JVal.jstr "x") ∧
    decodeStringVal (Json.obj [("Val", JVal.jstr "x"), ("Extra", JVal.jstr "y")]) =
      Except.ok ⟨"x"⟩ :=
  ⟨by decide,
   C7_forward_compatibility.1 [("Val", JVal.jstr "x"), ("Extra", JVal.jstr "y")] "x" (by decide)⟩

/-- Claim C8: when a method (including a finder) returns a non-nil
error and an error transformer is installed, the transformer receives
that concrete error value and the transformed error message becomes the
wire error message; if the transformed error exposes an `ErrorCode`
accessor, its value becomes the wire error code; the caller then
observes a request error exposing that code, whose string form is
`request error: <message> (<code>)` when a code is present and
`request error: <message>` otherwise. -/
theorem C8_error_transformer :
    (∀ (tf : GoErr → GoErr) (cs : List CallInfo) (rErr : Bool) (ids : List String)
        (oid : String) (body : Json) (e : GoErr),
        (tf e).message ≠ "" →
        rpcCall RootKind.mainRoot tf ⟨cs, rErr, ids, some (some e)⟩
            "ErrorMethods" oid "Call" body =
          (⟨cs, rErr, ids, some (some e)⟩,
           Except.error ⟨(tf e).message, ((tf e).errorCode).getD ""⟩)) ∧
    (∀ (tf : GoErr → GoErr) (cs : List CallInfo) (rErr : Bool) (ids : List String)
        (oid : String) (body : Json),
        (tf (GoErr.plain "no error methods")).message ≠ "" →
        rpcCall RootKind.mainRoot tf ⟨cs, rErr, ids, none⟩ "ErrorMethods" oid "Call" body =
          (⟨cs, rErr, ids, none⟩,
           Except.error ⟨(tf (GoErr.plain "no error methods")).message,
             ((tf (GoErr.plain "no error methods")).errorCode).getD ""⟩)) ∧
    (rpcCall RootKind.mainRoot id ⟨[], false, [], some (some (GoErr.coded "message" "code"))⟩
        "ErrorMethods" "" "Call" Json.null =
      (⟨[], false, [], some (some (GoErr.coded "message" "code"))⟩,
       Except.error ⟨"message", "code"⟩)) ∧
    (RequestError.errString ⟨"message", "code"⟩ = "request error: message (code)") ∧
    (RequestError.errString ⟨"message", ""⟩ = "request error: message") ∧
    (rpcCall RootKind.mainRoot tfErrTest
        ⟨[], false, [], some (some (GoErr.coded "message" "code"))⟩
        "ErrorMethods" "" "Call" Json.null =
      (⟨[], false, [], some (some (GoErr.coded "message" "code"))⟩,
       Except.error ⟨"transformed: message", "transformed: code"⟩)) ∧
    (rpcCall RootKind.mainRoot tfErrTest ⟨[], false, [], some none⟩
        "ErrorMethods" "" "Call" Json.null =
      (⟨[], false, [], some none⟩, Except.ok none)) ∧
    (rpcCall RootKind.mainRoot tfErrTest ⟨[], false, [], none⟩
        "ErrorMethods" "" "Call" Json.null =
      (⟨[], false, [], none⟩, Except.error ⟨"transformed: no error methods", ""⟩)) := by
  refine ⟨?_, ?_, by decide, by decide, by decide, by decide, by decide, by decide⟩
  · intro tf cs rErr ids oid body e h
    have hm : methodsOfK RootKind.mainRoot "ErrorMethods" = some ["Call"] := by decide
    simp [rpcCall, serveReqK, hm, Option.elim, dispatchK, errFromGoErr, errR, h]
  · intro tf cs rErr ids oid body h
    have hm : methodsOfK RootKind.mainRoot "ErrorMethods" = some ["Call"] := by decide
    simp [rpcCall, serveReqK, hm, Option.elim, dispatchK, errFromGoErr, errR, h]

theorem C8_error_transformer_witness :
    ((tfErrTest (GoErr.coded "message" "code")).message ≠ "" ∧
     rpcCall RootKind.mainRoot tfErrTest
         ⟨[], false, [], some (some (GoErr.coded "message" "code"))⟩
         "ErrorMethods" "e1" "Call" Json.null =
       (⟨[], false, [], some (some (GoErr.coded "message" "code"))⟩,
        Except.error ⟨(tfErrTest (GoErr.coded "message" "code")).message,
          ((tfErrTest (GoErr.coded "message" "code")).errorCode).getD ""⟩)) ∧
    ((tfErrTest (GoErr.plain "no error methods")).message ≠ "" ∧
     rpcCall RootKind.mainRoot tfErrTest ⟨[], false, [], none⟩
         "ErrorMethods" "e1" "Call" Json.null =
       (⟨[], false, [], none⟩,
        Except.error ⟨(tfErrTest (GoErr.plain "no error methods")).message,
          ((tfErrTest (GoErr.plain "no error methods")).errorCode).getD ""⟩)) :=
  ⟨⟨by decide,
    C8_error_transformer.1 tfErrTest [] false [] "e1" Json.null
      (GoErr.coded "message" "code") (by decide)⟩,
   ⟨by decide,
    C8_error_transformer.2.1 tfErrTest [] false [] "e1" Json.null (by decide)⟩⟩

/-- Claim C9: a server method may issue a call on the same connection
while still executing: with both ends serving, a call to
`CallbackMethods.Factorial` with argument `{I: 12}` recurses through
nested calls on the same connection and returns `{I: 479001600}` with
no error; when the calling end is not serving, the nested call fails
with a no-service error that surfaces to the original caller wrapped as
`request error: request error: no service`. -/
theorem C9_reentrant_factorial :
    factCall 13 true true 12 = Except.ok 479001600 ∧
    factCall 13 true false 12 = Except.error ⟨"request error: no service", ""⟩ ∧
    RequestError.errString ⟨"request error: no service", ""⟩ =
      "request error: request error: no service" :=
  ⟨by decide, by decide, by decide⟩

/-- Claim C10: after the JSON codec close operation returns (returning
a nil error and closing the underlying connection), every subsequent
read of a header returns end of input, even when the underlying
connection would otherwise report a different receive error. -/
theorem C10_eof_after_close :
    (∀ (c : JsonCodec) (n : Nat),
        (codecClose c).2 = none ∧
        (codecClose c).1.conn.closed = true ∧
        (readHeaderN (codecClose c).1 n).2 = Except.error ReadErr.eof) ∧
    (codecReadHeader ⟨⟨[], some "some error", false⟩, false⟩).2 =
        Except.error (ReadErr.recvErr "error receiving message: some error") ∧
    (readHeaderN (codecClose (codecReadHeader ⟨⟨[], some "some error", false⟩, false⟩).1).1 0).2 =
        Except.error ReadErr.eof := by
  refine ⟨?_, by decide, by decide⟩
  intro c n
  refine ⟨rfl, rfl, ?_⟩
  rw [readHeaderN_closed n _ rfl]
